import Mathlib

/-
Verification development for the causality SSZ FFI stubs.

Modelling conventions, translated from the C sources
(ml_ssz/lib/ml_ssz_ffi_stubs.c and
ml_causality/lib/ssz_bridge/rust_ffi_stubs.c):

* An OCaml string is a byte sequence; it is modelled as a List Nat whose
  entries stand for the stored bytes.  Every read of a byte from memory is
  taken modulo 256, which is exactly what the machine stores, so the model
  also behaves sensibly on out-of-range entries.
* OCaml integers cross the boundary through Int_val / Val_int; the C code
  then works in a 32-bit signed int.  We model the OCaml-visible integers
  as Lean Int and make every 32-bit truncation and signed reinterpretation
  explicit (toSigned32).
* Buffer lengths are modelled exactly as Nat.  The C code stores
  caml_string_length in an int, so the model is faithful for buffers below
  2^31 bytes; every theorem below stays inside that regime.
* In caml_rust_simple_hash the input is read through a signed char, so a
  byte b of 128 or more contributes b - 256 to the accumulator; modulo 2^32
  that is b + (2^32 - 256), which charAdj makes explicit.
* In rust_compute_content_hash_stub the signed-char read is followed by a
  reduction modulo 256, and (i + (b - 256)) mod 256 = (i + b) mod 256, so
  the signedness cancels there and the model uses the plain byte.
-/

/-- toSigned32 reinterprets a 32-bit unsigned value as a signed 32-bit int,
mirroring what storing it in a C int and returning it through Val_int does. -/
def toSigned32 (u : Nat) : Int :=
  if u % 2 ^ 32 < 2 ^ 31 then (u % 2 ^ 32 : Nat) else (u % 2 ^ 32 : Nat) - 2 ^ 32

/-- u32bytesLE is the little-endian 4-byte encoding of the low 32 bits of a
natural number, as produced by the byte stores data[0..3] in the C stubs. -/
def u32bytesLE (n : Nat) : List Nat :=
  [n % 256, n / 256 % 256, n / 65536 % 256, n / 16777216 % 256]

/-- readI32 reassembles four bytes little-endian exactly as the C expression
data[0] | (data[1] << 8) | (data[2] << 16) | (data[3] << 24) does when the
result is stored in a signed 32-bit int: the top bit becomes the sign. -/
def readI32 (b0 b1 b2 b3 : Nat) : Int :=
  toSigned32 (b0 % 256 + 256 * (b1 % 256) + 65536 * (b2 % 256) + 16777216 * (b3 % 256))

/-- caml_rust_serialize_bool writes a single byte, 1 for true and 0 for
false. -/
def caml_rust_serialize_bool (b : Bool) : List Nat :=
  [if b then 1 else 0]

/-- caml_rust_deserialize_bool returns (len > 0 && data[0] != 0): false on the
empty buffer, and true exactly when the first stored byte is nonzero. -/
def caml_rust_deserialize_bool (bs : List Nat) : Bool :=
  match bs with
  | [] => false
  | b :: _ => decide (b % 256 ≠ 0)

/-- caml_rust_serialize_u32 truncates the incoming OCaml int to its low 32
bits (int n = Int_val(v)) and writes them as four little-endian bytes. -/
def caml_rust_serialize_u32 (v : Int) : List Nat :=
  u32bytesLE (v % 2 ^ 32).toNat

/-- caml_rust_deserialize_u32 returns 0 when the buffer is shorter than 4
bytes; otherwise it reassembles the first four bytes through a signed 32-bit
int and returns that value through Val_int. -/
def caml_rust_deserialize_u32 (bs : List Nat) : Int :=
  match bs with
  | b0 :: b1 :: b2 :: b3 :: _ => readI32 b0 b1 b2 b3
  | _ => 0

/-- caml_rust_serialize_string writes the byte length of the string as a
little-endian 4-byte value and then copies the string bytes after it. -/
def caml_rust_serialize_string (s : List Nat) : List Nat :=
  u32bytesLE s.length ++ s

/-- caml_rust_deserialize_string returns the empty string when the buffer is
shorter than 4 bytes, reads the declared length from the first four bytes
through a signed 32-bit int, returns the empty string when the buffer is
shorter than 4 plus that length, and otherwise copies out that many bytes.
A negative declared length (top bit set) would make the C call
caml_alloc_string with a negative size and abort the runtime; no theorem
below exercises that corner, where the model yields the empty string. -/
def caml_rust_deserialize_string (bs : List Nat) : List Nat :=
  match bs with
  | b0 :: b1 :: b2 :: b3 :: rest =>
      if (4 : Int) + rest.length < 4 + readI32 b0 b1 b2 b3 then []
      else rest.take (readI32 b0 b1 b2 b3).toNat
  | _ => []

/-- charAdj is the contribution of one input byte to the simple-hash
accumulator: the byte is read through a signed char, so values of 128 and
above act as b - 256, which modulo 2^32 is b + (2^32 - 256). -/
def charAdj (b : Nat) : Nat :=
  if b % 256 < 128 then b % 256 else b % 256 + (2 ^ 32 - 256)

/-- hashStep is one iteration of the simple-hash loop:
hash = (hash * 31 + data[i]) & 0xFFFFFFFF. -/
def hashStep (acc b : Nat) : Nat :=
  (acc * 31 + charAdj b) % 2 ^ 32

/-- hashAcc is the 32-bit accumulator the simple-hash loop computes over the
whole input buffer, starting from 0. -/
def hashAcc (bs : List Nat) : Nat :=
  bs.foldl hashStep 0

/-- nibbleSpread builds the 32-byte output of the simple hash: output byte k
is nibble k / 4 of the accumulator, so each nibble is repeated four times. -/
def nibbleSpread (h : Nat) : List Nat :=
  (List.range 32).map (fun k => h / 16 ^ (k / 4) % 16)

/-- caml_rust_simple_hash folds the 31-multiplier accumulator over the buffer
and spreads its eight nibbles over a 32-byte output. -/
def caml_rust_simple_hash (bs : List Nat) : List Nat :=
  nibbleSpread (hashAcc bs)

/-- rust_compute_content_hash_stub fills a 32-byte output with
(i + input[i % len]) % 256, using 0 in place of the input byte when the
buffer is empty. -/
def rust_compute_content_hash_stub (bs : List Nat) : List Nat :=
  (List.range 32).map (fun i =>
    (i + (match bs with
          | [] => 0
          | _ :: _ => bs.getD (i % bs.length) 0 % 256)) % 256)

/-- caml_rust_roundtrip_bool serializes and immediately deserializes a
boolean. -/
def caml_rust_roundtrip_bool (b : Bool) : Bool :=
  caml_rust_deserialize_bool (caml_rust_serialize_bool b)

/-- caml_rust_roundtrip_u32 serializes and immediately deserializes an
integer. -/
def caml_rust_roundtrip_u32 (v : Int) : Int :=
  caml_rust_deserialize_u32 (caml_rust_serialize_u32 v)

/-- caml_rust_roundtrip_string serializes and immediately deserializes a
string. -/
def caml_rust_roundtrip_string (s : List Nat) : List Nat :=
  caml_rust_deserialize_string (caml_rust_serialize_string s)

/-- hashAccAux_lt: folding hashStep from any accumulator below 2^32 stays
below 2^32, since every step ends with a reduction modulo 2^32. -/
lemma hashAccAux_lt (bs : List Nat) :
    ∀ acc : Nat, acc < 2 ^ 32 → bs.foldl hashStep acc < 2 ^ 32 := by
  induction bs with
  | nil => intro acc h; simpa using h
  | cons b t ih =>
      intro acc h
      simp only [List.foldl_cons]
      exact ih _ (Nat.mod_lt _ (by norm_num))

/-- hashAcc_lt: the simple-hash accumulator is always below 2^32. -/
lemma hashAcc_lt (bs : List Nat) : hashAcc bs < 2 ^ 32 :=
  hashAccAux_lt bs 0 (by norm_num)

/-- nibbleSpread_getD: byte i of the spread output is nibble i / 4 of the
accumulator. -/
lemma nibbleSpread_getD (h i : Nat) (hi : i < 32) :
    (nibbleSpread h).getD i 0 = h / 16 ^ (i / 4) % 16 := by
  simp [nibbleSpread, List.getD, List.getElem?_map, List.getElem?_range hi]

/-- toSigned32_of_lt: values below 2^31 are unchanged by the signed 32-bit
reinterpretation. -/
lemma toSigned32_of_lt (u : Nat) (h : u < 2 ^ 31) : toSigned32 u = u := by
  unfold toSigned32
  rw [Nat.mod_eq_of_lt (by omega)]
  rw [if_pos h]

/-- readI32_u32bytesLE: reassembling the four little-endian bytes of a value
below 2^32 yields its signed 32-bit reinterpretation. -/
lemma readI32_u32bytesLE (n : Nat) (h : n < 2 ^ 32) :
    readI32 (n % 256) (n / 256 % 256) (n / 65536 % 256) (n / 16777216 % 256) =
      toSigned32 n := by
  unfold readI32
  congr 1
  omega

/-- C1 counterexample: the claimed u32 round-trip fails at n = 2^31.  The
decoder reassembles the bytes through a signed 32-bit int, so the buffer
[0, 0, 0, 128] written for 2147483648 comes back as -2147483648. -/
theorem c1_u32_roundtrip_counterexample :
    caml_rust_roundtrip_u32 (2147483648 : Int) ≠ (2147483648 : Int) := by
  decide

/-- C1 (amended): the Bool round-trip holds for every boolean; the u32
round-trip returns the signed 32-bit reinterpretation of n, which equals n
exactly when n < 2^31; the String round-trip holds for every byte string
whose encoded buffer stays below the 2^31 int limit of the C code. -/
theorem c1_roundtrip_signed :
    (∀ b : Bool, caml_rust_roundtrip_bool b = b) ∧
    (∀ n : Nat, n < 2 ^ 32 → caml_rust_roundtrip_u32 (n : Int) = toSigned32 n) ∧
    (∀ s : List Nat, 4 + s.length < 2 ^ 31 → caml_rust_roundtrip_string s = s) := by
  refine ⟨?_, ?_, ?_⟩
  · intro b
    cases b <;> rfl
  · intro n hn
    have hm : (((n : Int)) % 2 ^ 32).toNat = n := by omega
    simp only [caml_rust_roundtrip_u32, caml_rust_serialize_u32, hm, u32bytesLE,
      caml_rust_deserialize_u32]
    exact readI32_u32bytesLE n hn
  · intro s hs
    have hL : s.length < 2 ^ 31 := by omega
    have hread : readI32 (s.length % 256) (s.length / 256 % 256)
        (s.length / 65536 % 256) (s.length / 16777216 % 256) = (s.length : Int) := by
      rw [readI32_u32bytesLE s.length (by omega), toSigned32_of_lt s.length hL]
    simp only [caml_rust_roundtrip_string, caml_rust_serialize_string, u32bytesLE,
      List.cons_append, List.nil_append, caml_rust_deserialize_string, hread]
    rw [if_neg (by omega)]
    have ht : ((s.length : Int)).toNat = s.length := by omega
    rw [ht, List.take_length]

/-- C1 witness: the amended round-trip theorem instantiated at true, at 5,
and at the two-byte string [104, 105]. -/
theorem c1_roundtrip_witness :
    caml_rust_roundtrip_bool true = true ∧
    caml_rust_roundtrip_u32 ((5 : Nat) : Int) = toSigned32 5 ∧
    caml_rust_roundtrip_string [104, 105] = [104, 105] :=
  ⟨c1_roundtrip_signed.1 true,
   c1_roundtrip_signed.2.1 5 (by norm_num),
   c1_roundtrip_signed.2.2 [104, 105] (by norm_num)⟩

/-- C2 counterexample: the encoding of the one-byte string [97] is the
five-byte buffer [1, 0, 0, 0, 97], carrying a 4-byte length field, so its
length is not the byte length of the string. -/
theorem c2_length_field_counterexample :
    caml_rust_serialize_string [97] = [1, 0, 0, 0, 97] ∧
    (caml_rust_serialize_string [97]).length ≠ 1 := by
  constructor
  · decide
  · decide

/-- C2 (amended): the string encoder emits a 4-byte little-endian length
field followed by the raw bytes of the string, so the encoding has length
4 plus the byte length of the string, its first four bytes are the length
field, and the bytes after them are exactly the string. -/
theorem c2_length_field_layout (s : List Nat) :
    caml_rust_serialize_string s = u32bytesLE s.length ++ s ∧
    (caml_rust_serialize_string s).length = 4 + s.length ∧
    (caml_rust_serialize_string s).take 4 = u32bytesLE s.length ∧
    (caml_rust_serialize_string s).drop 4 = s := by
  refine ⟨rfl, ?_, ?_, ?_⟩
  · simp only [caml_rust_serialize_string, u32bytesLE, List.length_append,
      List.length_cons, List.length_nil]
  · simp [caml_rust_serialize_string, u32bytesLE]
  · simp [caml_rust_serialize_string, u32bytesLE]

/-- C7: encode(Bool(true)) is the single byte [1], encode(Int(1)) is the four
bytes [1, 0, 0, 0], and decoding each encoding recovers the original value. -/
theorem c7_boundary_examples :
    caml_rust_serialize_bool true = [1] ∧
    caml_rust_serialize_u32 (1 : Int) = [1, 0, 0, 0] ∧
    caml_rust_deserialize_bool [1] = true ∧
    caml_rust_deserialize_u32 [1, 0, 0, 0] = (1 : Int) := by
  refine ⟨rfl, by decide, by decide, by decide⟩

/-- C3 counterexample: on the 0-byte buffer, which is shorter than every
fixed zone, u32 decoding returns the ordinary value 0 and string decoding
returns the empty string, so decode does return a value instead of failing
with a deserialization error. -/
theorem c3_short_buffer_counterexample :
    caml_rust_deserialize_u32 [] = 0 ∧ caml_rust_deserialize_string [] = [] :=
  ⟨rfl, rfl⟩

/-- C3 (amended): for every buffer shorter than 4 bytes, u32 decoding
returns the default value 0 and string decoding returns the empty string;
no error is signalled. -/
theorem c3_short_buffer_defaults (bs : List Nat) (h : bs.length < 4) :
    caml_rust_deserialize_u32 bs = 0 ∧ caml_rust_deserialize_string bs = [] := by
  match bs with
  | [] => exact ⟨rfl, rfl⟩
  | [_] => exact ⟨rfl, rfl⟩
  | [_, _] => exact ⟨rfl, rfl⟩
  | [_, _, _] => exact ⟨rfl, rfl⟩
  | _ :: _ :: _ :: _ :: _ => simp only [List.length_cons] at h; omega

/-- C3 witness: the amended theorem instantiated at the one-byte buffer
[9]. -/
theorem c3_short_buffer_witness :
    caml_rust_deserialize_u32 [9] = 0 ∧ caml_rust_deserialize_string [9] = [] :=
  c3_short_buffer_defaults [9] (by norm_num)

/-- C9: the decoders silently return defaults on malformed input: u32
decoding of a buffer shorter than 4 bytes returns 0; string decoding returns
the empty string on a buffer shorter than 4 bytes, and on a buffer whose
remainder after the length field is shorter than the declared length; bool
decoding of the empty buffer returns false and of any buffer with a nonzero
first byte returns true. -/
theorem c9_silent_defaults :
    (∀ bs : List Nat, bs.length < 4 → caml_rust_deserialize_u32 bs = 0) ∧
    (∀ bs : List Nat, bs.length < 4 → caml_rust_deserialize_string bs = []) ∧
    (∀ b0 b1 b2 b3 : Nat, ∀ rest : List Nat,
      (rest.length : Int) < readI32 b0 b1 b2 b3 →
      caml_rust_deserialize_string (b0 :: b1 :: b2 :: b3 :: rest) = []) ∧
    caml_rust_deserialize_bool [] = false ∧
    (∀ b : Nat, ∀ bs : List Nat, b % 256 ≠ 0 →
      caml_rust_deserialize_bool (b :: bs) = true) := by
  refine ⟨?_, ?_, ?_, rfl, ?_⟩
  · intro bs h
    match bs with
    | [] => rfl
    | [_] => rfl
    | [_, _] => rfl
    | [_, _, _] => rfl
    | _ :: _ :: _ :: _ :: _ => simp only [List.length_cons] at h; omega
  · intro bs h
    match bs with
    | [] => rfl
    | [_] => rfl
    | [_, _] => rfl
    | [_, _, _] => rfl
    | _ :: _ :: _ :: _ :: _ => simp only [List.length_cons] at h; omega
  · intro b0 b1 b2 b3 rest h
    simp only [caml_rust_deserialize_string]
    rw [if_pos (by omega)]
  · intro b bs h
    simp [caml_rust_deserialize_bool, h]

/-- C9 witness: the defaults theorem instantiated at concrete malformed
buffers: [1, 2, 3] for u32, [9] and [2, 0, 0, 0, 9] for strings (the latter
declares length 2 but carries only one byte), and [] and [7] for bool. -/
theorem c9_silent_defaults_witness :
    caml_rust_deserialize_u32 [1, 2, 3] = 0 ∧
    caml_rust_deserialize_string [9] = [] ∧
    caml_rust_deserialize_string [2, 0, 0, 0, 9] = [] ∧
    caml_rust_deserialize_bool [] = false ∧
    caml_rust_deserialize_bool [7] = true :=
  ⟨c9_silent_defaults.1 [1, 2, 3] (by norm_num),
   c9_silent_defaults.2.1 [9] (by norm_num),
   c9_silent_defaults.2.2.1 2 0 0 0 [9] (by decide),
   c9_silent_defaults.2.2.2.1,
   c9_silent_defaults.2.2.2.2 7 [] (by norm_num)⟩

/-- C4 counterexample: the bridge content-hash operation collides on the
strings "a" ([97]) and "aa" ([97, 97]): output byte i is
(i + input[i mod len]) mod 256, and every sampled byte of both inputs is 97,
so the two 32-byte outputs are identical, refuting the claim for this
content-hash operation. -/
theorem c4_stub_collision_counterexample :
    rust_compute_content_hash_stub [97] = rust_compute_content_hash_stub [97, 97] := by
  decide

/-- C4 (amended): the content hashes of "a" and "aa" are different under
caml_rust_simple_hash, but coincide under rust_compute_content_hash_stub,
so only the first of the two content-hash operations separates the two
strings. -/
theorem c4_length_sensitivity_split :
    caml_rust_simple_hash [97] ≠ caml_rust_simple_hash [97, 97] ∧
    rust_compute_content_hash_stub [97] = rust_compute_content_hash_stub [97, 97] := by
  constructor
  · decide
  · decide

/-- C5 counterexample: the two content-hash operations disagree on the
zero-byte buffer, where caml_rust_simple_hash returns 32 zero bytes and
rust_compute_content_hash_stub returns the bytes 0..31; a single
hash-tree-root function of the input cannot equal both, so the claim that
each operation computes the Merkle hash-tree-root fails. -/
theorem c5_not_merkle_counterexample :
    caml_rust_simple_hash [] ≠ rust_compute_content_hash_stub [] := by
  decide

/-- C5 (amended): the content-hash operations are placeholder hashes, not
the Merkle hash-tree-root: on the zero-byte input caml_rust_simple_hash
returns the 32-byte all-zero buffer, rust_compute_content_hash_stub returns
the bytes 0..31, and the two outputs differ, so at most one of them can
agree with any hash-tree-root of the input; neither treats the zero-byte
input as an error. -/
theorem c5_placeholder_hashes :
    caml_rust_simple_hash [] = List.replicate 32 0 ∧
    rust_compute_content_hash_stub [] = List.range 32 ∧
    caml_rust_simple_hash [] ≠ rust_compute_content_hash_stub [] := by
  refine ⟨by decide, by decide, by decide⟩

/-- C6: encoding and content hashing are deterministic: on equal inputs the
serializers yield identical byte outputs and the content-hash operations
yield identical 32-byte outputs; all five operations are pure functions of
their input buffers. -/
theorem c6_determinism (b b' : Bool) (v v' : Int) (s s' x y : List Nat)
    (hb : b = b') (hv : v = v') (hs : s = s') (hxy : x = y) :
    caml_rust_serialize_bool b = caml_rust_serialize_bool b' ∧
    caml_rust_serialize_u32 v = caml_rust_serialize_u32 v' ∧
    caml_rust_serialize_string s = caml_rust_serialize_string s' ∧
    caml_rust_simple_hash x = caml_rust_simple_hash y ∧
    rust_compute_content_hash_stub x = rust_compute_content_hash_stub y := by
  subst hb; subst hv; subst hs; subst hxy
  exact ⟨rfl, rfl, rfl, rfl, rfl⟩

/-- C6 witness: determinism instantiated at concrete equal inputs. -/
theorem c6_determinism_witness :
    caml_rust_serialize_bool true = caml_rust_serialize_bool true ∧
    caml_rust_serialize_u32 7 = caml_rust_serialize_u32 7 ∧
    caml_rust_serialize_string [97] = caml_rust_serialize_string [97] ∧
    caml_rust_simple_hash [97] = caml_rust_simple_hash [97] ∧
    rust_compute_content_hash_stub [97] = rust_compute_content_hash_stub [97] :=
  c6_determinism true true 7 7 [97] [97] [97] [97] rfl rfl rfl rfl

/-- C8: for every input buffer, each content-hash operation returns a buffer
of exactly 32 bytes. -/
theorem c8_hash_length32 (bs : List Nat) :
    (caml_rust_simple_hash bs).length = 32 ∧
    (rust_compute_content_hash_stub bs).length = 32 := by
  constructor
  · simp [caml_rust_simple_hash, nibbleSpread]
  · simp [rust_compute_content_hash_stub]

/-- C10: the 32-byte output of the simple hash consists of eight groups of
four consecutive identical bytes (byte i equals byte 4 * (i / 4), the first
byte of its group), every output byte is at most 15, and the whole output is
the nibble spread of a 32-bit accumulator, so the operation has at most 2^32
distinct outputs. -/
theorem c10_nibble_structure (bs : List Nat) (i : Nat) (hi : i < 32) :
    (caml_rust_simple_hash bs).getD i 0 ≤ 15 ∧
    (caml_rust_simple_hash bs).getD i 0 =
      (caml_rust_simple_hash bs).getD (4 * (i / 4)) 0 ∧
    hashAcc bs < 2 ^ 32 ∧
    caml_rust_simple_hash bs = nibbleSpread (hashAcc bs) := by
  have hgroup : 4 * (i / 4) < 32 := by omega
  have h1 : (caml_rust_simple_hash bs).getD i 0 = hashAcc bs / 16 ^ (i / 4) % 16 := by
    simpa [caml_rust_simple_hash] using nibbleSpread_getD (hashAcc bs) i hi
  have h2 : (caml_rust_simple_hash bs).getD (4 * (i / 4)) 0 =
      hashAcc bs / 16 ^ (4 * (i / 4) / 4) % 16 := by
    simpa [caml_rust_simple_hash] using nibbleSpread_getD (hashAcc bs) (4 * (i / 4)) hgroup
  refine ⟨?_, ?_, hashAcc_lt bs, rfl⟩
  · rw [h1]
    have := Nat.mod_lt (hashAcc bs / 16 ^ (i / 4)) (show 0 < 16 by norm_num)
    omega
  · rw [h1, h2, Nat.mul_div_cancel_left (i / 4) (show 0 < 4 by norm_num)]

/-- C10 witness: the structure theorem instantiated at the buffer [97] and
output position 5. -/
theorem c10_nibble_structure_witness :
    (caml_rust_simple_hash [97]).getD 5 0 ≤ 15 ∧
    (caml_rust_simple_hash [97]).getD 5 0 =
      (caml_rust_simple_hash [97]).getD (4 * (5 / 4)) 0 ∧
    hashAcc [97] < 2 ^ 32 ∧
    caml_rust_simple_hash [97] = nibbleSpread (hashAcc [97]) :=
  c10_nibble_structure [97] 5 (by norm_num)
